import Mathlib

/-!
Verification of the Quest object runtime core: object identity, the
prototype attribute Resolver, call-stack binding, dynamic dispatch and
method binding, one-time class population, and the `Regex` collaborator
type.

The embedding follows the Rust sources under `core/src/types`
(`pristine.rs`, `bound_function.rs`, `regex.rs`, `macros.rs`) and
`bin/src/run.rs`.  The `Object` / `Binding` / `Args` primitives those
files call into live elsewhere in the crate; where a definition below
embeds one of those primitives it is modelled from the specification
(§3, §4.2–§4.5) and from the resolution algorithm documented on
`Pristine`, and its doc comment says so.
-/

set_option maxHeartbeats 1000000

/-- Reference to an object slot in the heap (objects are shared; every
holder sees the same slot). -/
abbrev ObjRef := Nat

/-- A runtime value: either a reference to an existing heap object, or a
freshly produced native value (the resolver's reserved specials and the
`Regex` methods produce fresh numbers, texts, nulls and sequences). -/
inductive QValue where
  | obj (r : ObjRef)
  | null
  | boolv (b : Bool)
  | num (n : Int)
  | text (s : String)
  | listv (xs : List QValue)

/-- Error taxonomy of the runtime (spec §7): `missingAttr` is
MissingAttribute, `outOfBounds` is ArityOrIndexError carrying the
requested index and the actual argument-list length (it mirrors
`KeyError::OutOfBounds { idx, len }` from `assert_call_missing_parameter`
in `macros.rs`), `downcast` is DowncastFailure, `initFailure` is
InitializationFailure.  `noFuel` is an artifact of the bounded embedding
of the recursive resolver. -/
inductive QErr where
  | missingAttr (k : String)
  | outOfBounds (idx : Nat) (len : Nat)
  | notFound (k : String)
  | notCallable
  | downcast (ty : String)
  | conversionFailure
  | initFailure
  | noFuel
deriving DecidableEq, Repr

/-- Body of a native (Rust) function, reduced to the shapes the claims
exercise: a function returning a fixed value, a missing-attribute hook
that declines (returns the sentinel) exactly on the listed keys, and a
function whose body requires the positional argument at index `i`. -/
inductive FnCode where
  | constFn (v : QValue)
  | declineKeys (ks : List String) (decline : QValue) (other : QValue)
  | argAt (i : Nat)

/-- Regex compilation flags (`new_with_options` applies each flag to the
builder; the concrete flag set lives in `regex/flag.rs`, modelled here as
the option set of the underlying regex builder). -/
structure Flags where
  icase : Bool := false
  multiLine : Bool := false
  dotAll : Bool := false
  swapGreed : Bool := false
  ignoreWhitespace : Bool := false
deriving DecidableEq, Repr

/-- Payload data of a `Regex` object (`struct Regex(regex::Regex, Flags)`
in `regex.rs`).  `pattern` is what `as_str` returns; `captures` abstracts
the compiled automaton of the external `regex` crate: applied to a
subject text it yields the groups of the leftmost-first match (group
order, `none` for a group that did not participate), or `none` when the
pattern does not match at all. -/
structure RegexData where
  pattern : String
  flags : Flags
  captures : String → Option (List (Option String))

/-- Native payload carried alongside an object's attribute map
(spec §3, "payload"). -/
inductive Payload where
  | pnone
  | pnull
  | pbool (b : Bool)
  | pnum (n : Int)
  | ptext (s : String)
  | rustFn (c : FnCode)
  | boundFn
  | pregex (d : RegexData)

/-- One object: allocation-time id, own attribute store, ordered parent
list, and optional native payload (spec §3, "Object"). -/
structure ObjData where
  oid : Nat
  store : List (String × QValue)
  parents : List ObjRef
  payload : Payload

abbrev Heap := List ObjData

/-- One call-stack frame: the owner object for the frame plus the
arguments of the invocation that created it (spec §3, "StackFrame"). -/
structure Frame where
  owner : ObjRef
  args : List QValue

/-- The call stack; index 0 (the list head) is the most recent frame. -/
abbrev Stack := List Frame

def heapGet : Heap → ObjRef → Option ObjData
  | [], _ => none
  | d :: _, 0 => some d
  | _ :: h, n + 1 => heapGet h n

def heapSet : Heap → ObjRef → ObjData → Heap
  | [], _, _ => []
  | _ :: h, 0, d => d :: h
  | x :: h, n + 1, d => x :: heapSet h n d

def lookupKey : List (String × QValue) → String → Option QValue
  | [], _ => none
  | (k2, v) :: s, k => if k = k2 then some v else lookupKey s k

def storeInsert : List (String × QValue) → String → QValue → List (String × QValue)
  | [], k, v => [(k, v)]
  | (k2, v2) :: s, k, v => if k = k2 then (k, v) :: s else (k2, v2) :: storeInsert s k v

/-- Own-store lookup (`get_own` of spec §4.1). -/
def storeLookup (h : Heap) (r : ObjRef) (k : String) : Option QValue :=
  match heapGet h r with
  | some d => lookupKey d.store k
  | none => none

def parentsOf (h : Heap) (r : ObjRef) : List ObjRef :=
  match heapGet h r with
  | some d => d.parents
  | none => []

def payloadOf (h : Heap) (r : ObjRef) : Payload :=
  match heapGet h r with
  | some d => d.payload
  | none => .pnone

/-- Payload of a value: heap objects carry their slot's payload, fresh
native values are their own payload. -/
def payloadOfV (h : Heap) (v : QValue) : Payload :=
  match v with
  | .obj r => payloadOf h r
  | .null => .pnull
  | .boolv b => .pbool b
  | .num n => .pnum n
  | .text s => .ptext s
  | .listv _ => .pnone

/-- Whether a value is the canonical "no value" sentinel `Null`
(`Object::default()` in the sources). -/
def isNullV (h : Heap) (v : QValue) : Bool :=
  match payloadOfV h v with
  | .pnull => true
  | _ => false

def isCallableV (h : Heap) (v : QValue) : Bool :=
  match payloadOfV h v with
  | .rustFn _ => true
  | .boundFn => true
  | _ => false

def textOfV (h : Heap) (v : QValue) : Option String :=
  match payloadOfV h v with
  | .ptext s => some s
  | _ => none

/-- Modelled from the spec: `Object::set_attr` (spec §4.2) — assignment
operates only on the object's own store, creating or overwriting the
entry in the receiver's own map. -/
def setAttr (h : Heap) (r : ObjRef) (k : String) (v : QValue) : Heap :=
  match heapGet h r with
  | some d => heapSet h r { d with store := storeInsert d.store k v }
  | none => h

/-- Modelled from the spec: `Object::has_attr` (spec §4.2) —
`set_attr`/`del_attr`/`has_attr` operate only on the object's own
store. -/
def hasAttr (h : Heap) (r : ObjRef) (k : String) : Bool :=
  (storeLookup h r k).isSome

/-- Modelled from the spec: `Args::try_arg(i)` — fails with
ArityOrIndexError carrying the requested index and the actual
argument-list length when the list is too short (`macros.rs`
`assert_call_missing_parameter` fixes the error shape to
`KeyError::OutOfBounds { idx, len }`). -/
def Args.try_arg (args : List QValue) (i : Nat) : Except QErr QValue :=
  match args[i]? with
  | some v => .ok v
  | none => .error (.outOfBounds i args.length)

/-- Modelled from the spec: `Args::arg(i)` as used fallibly by
`regex.rs` (`args.arg(0)?`); same failure as `try_arg`. -/
def Args.arg (args : List QValue) (i : Nat) : Except QErr QValue :=
  Args.try_arg args i

/-- Modelled from the spec: locating the missing-attribute hook — the
object "via its own store or inherited" defines an attribute literally
named `__attr_missing__` (spec §4.2 step 3, `Pristine` doc step 3).
`fuel` bounds recursion through possibly cyclic parent chains. -/
def findHook : Nat → Heap → ObjRef → Option QValue
  | 0, _, _ => none
  | fuel + 1, h, o =>
    match storeLookup h o "__attr_missing__" with
    | some v => some v
    | none => (parentsOf h o).findSome? (fun p => findHook fuel h p)

/-- Run a missing-attribute hook body on the requested key (the hook is
invoked "with the requested key as sole argument", spec §4.2 step 3). -/
def execHook (c : FnCode) (k : String) : Except QErr QValue :=
  match c with
  | .constFn v => .ok v
  | .declineKeys ks d v => .ok (if k ∈ ks then d else v)
  | .argAt i => if i = 0 then .ok (.text k) else .error (.outOfBounds i 1)

/-- Run a native function body on an argument list. -/
def execFn (h : Heap) (c : FnCode) (args : List QValue) : Except QErr QValue :=
  match c with
  | .constFn v => .ok v
  | .declineKeys ks d v =>
    match args with
    | [] => .error (.outOfBounds 0 0)
    | a :: _ =>
      match textOfV h a with
      | some s => .ok (if s ∈ ks then d else v)
      | none => .error (.downcast "Text")
  | .argAt i => Args.try_arg args i

/-- The two stack-relative pseudo-attributes' `__this__` case: stack
frame 0's owner, defined only when a frame exists (spec §4.2 step 1). -/
def specialThis (st : Stack) (k : String) : Option QValue :=
  if k = "__this__" then st.head?.map (fun f => QValue.obj f.owner) else none

def okOf (e : Except QErr (QValue × Bool)) : Option (QValue × Bool) :=
  match e with
  | .ok v => some v
  | .error _ => none

/-- Modelled from the spec: the 4-step attribute resolution of
`Object::get_attr` (spec §4.2; identically documented on `Pristine` in
`pristine.rs`).  Returns the resolved value together with a flag telling
whether the match was found through the parent chain (step 4) rather
than steps 1–3 on the receiver itself — the flag the receiver-style
retrieval uses to decide method binding (spec §4.4).  Steps, each
short-circuiting on success:
1. reserved specials `__id__` (the allocation-time id, never the store),
   `__parents__`, `__stack__`, and `__this__` (only when a frame exists);
2. the object's own store;
3. the `__attr_missing__` hook, called with the key; a non-`Null` result
   is returned, a `Null` result means "I decline; keep searching";
4. each parent in declared order, recursively with the entire algorithm;
   first success wins.
If nothing matches the lookup fails with MissingAttribute.  `fuel`
bounds the recursion (parent chains may be cyclic: a bootstrap class
lists itself as its own parent). -/
def resolve : Nat → Heap → Stack → ObjRef → String → Except QErr (QValue × Bool)
  | 0, _, _, _, _ => .error .noFuel
  | fuel + 1, h, st, o, k =>
    match heapGet h o with
    | none => .error (.missingAttr k)
    | some d =>
      if k = "__id__" then .ok (.num d.oid, false)
      else if k = "__parents__" then .ok (.listv (d.parents.map QValue.obj), false)
      else if k = "__stack__" then
        .ok (.listv (st.map (fun f => QValue.obj f.owner)), false)
      else
        match specialThis st k with
        | some v => .ok (v, false)
        | none =>
          match lookupKey d.store k with
          | some v => .ok (v, false)
          | none =>
            let viaParents : Except QErr (QValue × Bool) :=
              match d.parents.findSome? (fun p => okOf (resolve fuel h st p k)) with
              | some vf => .ok (vf.1, true)
              | none => .error (.missingAttr k)
            match findHook fuel h o with
            | some hv =>
              match payloadOfV h hv with
              | .rustFn c =>
                match execHook c k with
                | .error e => .error e
                | .ok r => if isNullV h r then viaParents else .ok (r, false)
              | _ => .error .notCallable
            | none => viaParents

/-- Modelled from the spec: `Object::get_attr` — raw retrieval, returns
exactly the resolved value, never wraps it as a bound method
(spec §4.2/§4.4). -/
def getAttr (fuel : Nat) (h : Heap) (st : Stack) (o : ObjRef) (k : String) :
    Except QErr QValue :=
  (resolve fuel h st o k).map (fun vf => vf.1)

def maxOid : Heap → Nat
  | [] => 0
  | d :: h => max d.oid (maxOid h)

/-- Allocate the ephemeral BoundMethod wrapper `{owner,
unbound_callable}` (spec §3): a fresh object whose own store holds
`__bound_object_owner__` and `__bound_object__` — the two attributes
`BoundFunction::qs_call` reads back. -/
def allocBound (h : Heap) (owner : ObjRef) (bound : QValue) : ObjRef × Heap :=
  (h.length,
   h ++ [{ oid := maxOid h + 1,
           store := [("__bound_object_owner__", QValue.obj owner),
                     ("__bound_object__", bound)],
           parents := [],
           payload := .boundFn }])

/-- Modelled from the spec: `Object::dot_get_attr` — receiver retrieval
(`.`): resolve, and when the match came from a parent (step 4) and the
value is callable, wrap it in a BoundMethod pairing it with the original
receiver; a match from the object's own store is returned unwrapped
(spec §4.4). -/
def dotGetAttr (fuel : Nat) (h : Heap) (st : Stack) (o : ObjRef) (k : String) :
    Except QErr (QValue × Heap) :=
  match resolve fuel h st o k with
  | .error e => .error e
  | .ok (v, fromParent) =>
    if fromParent && isCallableV h v then
      let rh := allocBound h o v
      .ok (.obj rh.1, rh.2)
    else
      .ok (v, h)

/-- A pending dispatch operation: invoke a resolved value, call an
attribute by name, or run `BoundFunction::qs_call` on a wrapper. -/
inductive Call where
  | inv (v : QValue) (args : List QValue)
  | cAttr (o : ObjRef) (k : String) (args : List QValue)
  | bcall (this : ObjRef) (args : List QValue)

/-- Dispatch engine, fuel-bounded.  `.inv` invokes a resolved value:
a native function runs its body, a BoundMethod wrapper runs
`BoundFunction::qs_call` (its `()` entry from `bound_function.rs`),
anything else is not callable.  `.cAttr` is `Object::call_attr`
(modelled from the spec §4.4: resolve the key via receiver retrieval,
then invoke the resolved value with the arguments).  `.bcall` is
`BoundFunction::qs_call` from `bound_function.rs` verbatim: read
`__bound_object_owner__` and `__bound_object__`, prepend the owner to
the arguments, and dispatch the wrapped callable via its own call
attribute (`Literal::CALL`, i.e. `"()"`). -/
def dispatch : Nat → Heap → Stack → Call → Except QErr (QValue × Heap)
  | 0, _, _, _ => .error .noFuel
  | fuel + 1, h, st, c =>
    match c with
    | .inv v args =>
      match v with
      | .obj r =>
        match payloadOf h r with
        | .rustFn code => (execFn h code args).map (fun rv => (rv, h))
        | .boundFn => dispatch fuel h st (.bcall r args)
        | _ => .error .notCallable
      | _ => .error .notCallable
    | .cAttr o k args =>
      match dotGetAttr (fuel + 1) h st o k with
      | .error e => .error e
      | .ok (f, h2) => dispatch fuel h2 st (.inv f args)
    | .bcall this args =>
      match getAttr (fuel + 1) h st this "__bound_object_owner__" with
      | .error e => .error e
      | .ok ow =>
        match getAttr (fuel + 1) h st this "__bound_object__" with
        | .error e => .error e
        | .ok bound =>
          match bound with
          | .obj br => dispatch fuel h st (.cAttr br "()" (ow :: args))
          | _ => .error .notCallable

/-- Invoke a resolved value with an argument list. -/
def invoke (fuel : Nat) (h : Heap) (st : Stack) (v : QValue) (args : List QValue) :
    Except QErr (QValue × Heap) :=
  dispatch fuel h st (.inv v args)

/-- Modelled from the spec: `Object::call_attr` (spec §4.4) — resolve
the key via receiver retrieval, then invoke the resolved value. -/
def callAttr (fuel : Nat) (h : Heap) (st : Stack) (o : ObjRef) (k : String)
    (args : List QValue) : Except QErr (QValue × Heap) :=
  dispatch fuel h st (.cAttr o k args)

/-- Embedding of `BoundFunction::qs_call` (`bound_function.rs`): fetch
the stored owner and wrapped callable, prepend the owner to the
arguments, dispatch the wrapped callable via its own `()` attribute. -/
def BoundFunction.qs_call (fuel : Nat) (h : Heap) (st : Stack) (this : ObjRef)
    (args : List QValue) : Except QErr (QValue × Heap) :=
  dispatch fuel h st (.bcall this args)

/-- Embedding of `Pristine::qs___get_attr__` (`pristine.rs`): the raw
retrieval operator — first positional argument is the key, looked up via
`get_attr`, never wrapped as a bound method.  Attribute keys are text
literals in this embedding. -/
def Pristine.qs_get_attr (fuel : Nat) (h : Heap) (st : Stack) (this : ObjRef)
    (args : List QValue) : Except QErr QValue :=
  match Args.try_arg args 0 with
  | .error e => .error e
  | .ok attr =>
    match textOfV h attr with
    | some k => getAttr fuel h st this k
    | none => .error (.downcast "Text")

/-- Embedding of `Pristine::qs___set_attr__` (`pristine.rs`): requires
positional arguments 0 (key) and 1 (value), writes the value into the
receiver's own store and returns the value. -/
def Pristine.qs_set_attr (h : Heap) (this : ObjRef) (args : List QValue) :
    Except QErr (QValue × Heap) :=
  match Args.try_arg args 0 with
  | .error e => .error e
  | .ok attr =>
    match Args.try_arg args 1 with
    | .error e => .error e
    | .ok val =>
      match textOfV h attr with
      | some k => .ok (val, setAttr h this k val)
      | none => .error (.downcast "Text")

/-- Embedding of `Pristine::qs___call_attr__` (`pristine.rs`): requires
the attribute name at position 0, forwards the remaining arguments
(`try_args(1..)`, empty when absent) to `call_attr`. -/
def Pristine.qs_call_attr (fuel : Nat) (h : Heap) (st : Stack) (this : ObjRef)
    (args : List QValue) : Except QErr (QValue × Heap) :=
  match Args.try_arg args 0 with
  | .error e => .error e
  | .ok attr =>
    match textOfV h attr with
    | some k => callAttr fuel h st this k (args.drop 1)
    | none => .error (.downcast "Text")

/-- Embedding of `Pristine::qs_dot_get_attr_q` (`pristine.rs`, the `.?`
safe-navigation operator): if `has_attr` then `get_attr`, else
`Object::default()` — a fresh `Null`. -/
def Pristine.qs_dot_get_attr_q (fuel : Nat) (h : Heap) (st : Stack) (this : ObjRef)
    (args : List QValue) : Except QErr QValue :=
  match Args.try_arg args 0 with
  | .error e => .error e
  | .ok attr =>
    match textOfV h attr with
    | none => .error (.downcast "Text")
    | some k =>
      if hasAttr h this k then getAttr fuel h st this k
      else .ok .null

/-- Modelled from the spec: `call_downcast::<Text>` — the first argument
of `Regex::qs_match` "is converted to a `Text` before matching"; the
conversion succeeds on text payloads and on the primitive payloads with
an `@text` conversion, and fails with a conversion error otherwise. -/
def callDowncastText (h : Heap) (v : QValue) : Except QErr String :=
  match payloadOfV h v with
  | .ptext s => .ok s
  | .pnum n => .ok (toString n)
  | .pbool b => .ok (toString b)
  | .pnull => .ok "null"
  | _ => .error .conversionFailure

/-- Equality of `Regex` payloads (`impl PartialEq for Regex` in
`regex.rs`): source pattern strings equal and flag sets equal. -/
def regexEq (d1 d2 : RegexData) : Bool :=
  d1.pattern = d2.pattern && d1.flags = d2.flags

/-- Embedding of `Regex::qs_eql` (`regex.rs`): take argument 0,
`try_downcast` the receiver to `Regex`, then `try_downcast` the argument
to `Regex` (no conversion), and compare. -/
def Regex.qs_eql (h : Heap) (this : ObjRef) (args : List QValue) :
    Except QErr QValue :=
  match Args.arg args 0 with
  | .error e => .error e
  | .ok rhs =>
    match payloadOf h this with
    | .pregex d1 =>
      match payloadOfV h rhs with
      | .pregex d2 => .ok (.boolv (regexEq d1 d2))
      | _ => .error (.downcast "Regex")
    | _ => .error (.downcast "Regex")

/-- Embedding of `Regex::qs_match` (`regex.rs`): take argument 0,
downcast the receiver to `Regex`, convert the argument to a `Text`, and
run `captures`: on a match, the groups in order, each matched group as
its text and each unmatched group as the default (`Null`); `Null` when
the pattern does not match. -/
def Regex.qs_match (h : Heap) (this : ObjRef) (args : List QValue) :
    Except QErr QValue :=
  match Args.arg args 0 with
  | .error e => .error e
  | .ok rhs =>
    match payloadOf h this with
    | .pregex d =>
      match callDowncastText h rhs with
      | .error e => .error e
      | .ok s =>
        match d.captures s with
        | some groups =>
          .ok (.listv (groups.map (fun g =>
            match g with
            | some m => QValue.text m
            | none => QValue.null)))
        | none => .ok .null
    | _ => .error (.downcast "Regex")

/-- Modelled from the spec: `Binding::run_stackframe` /
`Binding::new_stackframe` (spec §4.3 `run_in_new_frame`) — push one
frame, run the body, pop that frame on every exit path (success or
failure), propagate the body's outcome unchanged.  The shared stack is
threaded explicitly; the body returns its outcome together with the
stack it leaves behind. -/
def Binding.run_stackframe (owner : ObjRef) (args : List QValue)
    (body : Stack → Except QErr QValue × Stack) (st : Stack) :
    Except QErr QValue × Stack :=
  let res := body ({ owner := owner, args := args } :: st)
  (res.1, res.2.tail)

/-- Programs built from scoped-frame acquisition: returning a value,
failing, running a body inside a new frame, and sequencing (the second
part runs only when the first succeeds, as with `?` in the sources). -/
inductive FrameProg where
  | ret (v : QValue)
  | fail (e : QErr)
  | inFrame (owner : ObjRef) (args : List QValue) (p : FrameProg)
  | seq (a b : FrameProg)

/-- Run a frame program against a stack, every frame acquisition going
through `Binding.run_stackframe`. -/
def runProg : FrameProg → Stack → Except QErr QValue × Stack
  | .ret v, st => (.ok v, st)
  | .fail e, st => (.error e, st)
  | .inFrame ow as p, st => Binding.run_stackframe ow as (runProg p) st
  | .seq a b, st =>
    match runProg a st with
    | (.ok _, st1) => runProg b st1
    | (.error e, st1) => (.error e, st1)

/-- State of one built-in type's one-time class population
(`impl_object_type!` in `macros.rs`): `claimed` is the `INITIALIZE`
atomic flag (`compare_and_swap(UNINIT, INIT, SeqCst)`), `populated`
records whether the method/constant table was ever fully written. -/
structure InitState where
  claimed : Bool
  populated : Bool
deriving DecidableEq, Repr

/-- Embedding of the generated `initialize` body (`macros.rs` lines
197–214): if the flag was already claimed, return `Ok(())` at once;
otherwise claim it, then populate the class table — `popOk` abstracts
whether the population body (`set_attr_lit`s) succeeds — reporting a
population failure to this first-claiming caller. -/
def initOnce (popOk : Bool) (s : InitState) : Except QErr Unit × InitState :=
  if s.claimed then (.ok (), s)
  else if popOk then (.ok (), { claimed := true, populated := true })
  else (.error .initFailure, { claimed := true, populated := false })

/-- Concrete one-object heap used to witness id immutability. -/
def idWitnessHeap : Heap := [⟨7, [], [], .pnone⟩]

/-- Concrete heap for the hook-decline witness: object 0 owns a hook
declining exactly `"z"`, its parent (slot 1) defines `z = 7`. -/
def hookWitnessHeap : Heap :=
  [⟨1, [("__attr_missing__", QValue.obj 2)], [1], .pnone⟩,
   ⟨2, [("z", QValue.num 7)], [], .pnone⟩,
   ⟨3, [], [], .rustFn (.declineKeys ["z"] QValue.null (QValue.num 42))⟩]

/-- Concrete heap for the first-parent-wins witness: object 0 has
parents `[1, 2]`, both of which define `y` (5 and 9). -/
def parentWitnessHeap : Heap :=
  [⟨1, [], [1, 2], .pnone⟩,
   ⟨2, [("y", QValue.num 5)], [], .pnone⟩,
   ⟨3, [("y", QValue.num 9)], [], .pnone⟩]

/-- Concrete heap for the bound-method witness: slot 0 is a BoundMethod
wrapper pairing owner (slot 2) with the wrapped callable (slot 1), whose
own `()` attribute is the native function returning 42. -/
def boundWitnessHeap : Heap :=
  [⟨1, [("__bound_object_owner__", QValue.obj 2), ("__bound_object__", QValue.obj 1)],
    [], .boundFn⟩,
   ⟨2, [("()", QValue.obj 1)], [], .rustFn (.constFn (.num 42))⟩,
   ⟨3, [], [], .pnone⟩]

/-- Concrete heap for the safe-navigation witness: object 0 owns
`x = 3` and nothing else. -/
def safeNavHeap : Heap := [⟨1, [("x", QValue.num 3)], [], .pnone⟩]

/-- Concrete heap for the arity witness: slot 0 is an unbound native
method whose body requires positional argument 0. -/
def arityWitnessHeap : Heap := [⟨1, [], [], .rustFn (.argAt 0)⟩]

/-- Pattern `a|b` with default flags (capture behaviour irrelevant to
equality). -/
def regexA : RegexData := ⟨"a|b", {}, fun _ => none⟩

/-- Pattern `b|a` with default flags: denotes the same language as
`regexA` but is written differently. -/
def regexB : RegexData := ⟨"b|a", {}, fun _ => none⟩

/-- Pattern `a|b` with the case-insensitive flag set. -/
def regexAI : RegexData := ⟨"a|b", { icase := true }, fun _ => none⟩

/-- Pattern `(a)(b)?` whose compiled matcher, on subject `"a"`, yields
whole-match group `a`, first group `a`, and an unparticipating second
group. -/
def regexMatchData : RegexData :=
  ⟨"(a)(b)?", {}, fun s => if s = "a" then some [some "a", some "a", none] else none⟩

/-- Concrete heap holding three regex objects for the equality witness. -/
def regexEqHeap : Heap :=
  [⟨1, [], [], .pregex regexA⟩,
   ⟨2, [], [], .pregex regexB⟩,
   ⟨3, [], [], .pregex regexAI⟩,
   ⟨4, [], [], .ptext "not a regex"⟩]

/-- Concrete heap holding the match-witness regex object. -/
def regexMatchHeap : Heap := [⟨1, [], [], .pregex regexMatchData⟩]

theorem heapGet_heapSet_self (h : Heap) (i : ObjRef) (d0 d : ObjData)
    (hh : heapGet h i = some d0) : heapGet (heapSet h i d) i = some d := by
  induction h generalizing i with
  | nil => simp [heapGet] at hh
  | cons x t ih =>
    cases i with
    | zero => simp [heapGet, heapSet]
    | succ n =>
      simp only [heapGet, heapSet] at *
      exact ih n hh

theorem lookupKey_storeInsert_self (s : List (String × QValue)) (k : String)
    (v : QValue) : lookupKey (storeInsert s k v) k = some v := by
  induction s with
  | nil => simp [storeInsert, lookupKey]
  | cons p t ih =>
    by_cases hk : k = p.1
    · simp [storeInsert, hk, lookupKey]
    · simp [storeInsert, hk, lookupKey, ih]

theorem listGet_none_of_len_le (l : List QValue) (i : Nat) (hl : l.length ≤ i) :
    l[i]? = none := by
  induction l generalizing i with
  | nil => simp
  | cons x t ih =>
    cases i with
    | zero => simp at hl
    | succ n =>
      simp only [List.getElem?_cons_succ]
      exact ih n (by simpa using hl)

/-- C4: after `set_attr(o, "__id__", X)` the reserved id attribute read
through `get_attr` still yields the object's allocation-time id — the
write lands in the backing store (own-store lookup now yields `X`) but
the reader's reserved-specials step ignores it; reading before the write
gives the same original id. -/
theorem id_read_ignores_store_write (n : Nat) (h : Heap) (st : Stack) (o : ObjRef)
    (d : ObjData) (X : QValue) (hd : heapGet h o = some d) :
    getAttr (n + 1) (setAttr h o "__id__" X) st o "__id__" = .ok (.num d.oid)
    ∧ storeLookup (setAttr h o "__id__" X) o "__id__" = some X
    ∧ getAttr (n + 1) h st o "__id__" = .ok (.num d.oid) := by
  have h2 : heapGet (setAttr h o "__id__" X) o
      = some { d with store := storeInsert d.store "__id__" X } := by
    rw [setAttr, hd]
    exact heapGet_heapSet_self h o d _ hd
  refine ⟨?_, ?_, ?_⟩
  · simp [getAttr, resolve, h2, Except.map]
  · simp [storeLookup, h2, lookupKey_storeInsert_self]
  · simp [getAttr, resolve, hd, Except.map]

/-- C4 witness: a concrete object with allocation-time id 7; writing 99
over `__id__` is accepted by the store yet the read still yields 7. -/
theorem id_read_ignores_store_write_witness :
    heapGet idWitnessHeap 0 = some ⟨7, [], [], .pnone⟩
    ∧ (getAttr 1 (setAttr idWitnessHeap 0 "__id__" (.num 99)) [] 0 "__id__"
        = .ok (.num 7)
      ∧ storeLookup (setAttr idWitnessHeap 0 "__id__" (.num 99)) 0 "__id__"
        = some (.num 99)
      ∧ getAttr 1 idWitnessHeap [] 0 "__id__" = .ok (.num 7)) :=
  ⟨rfl, id_read_ignores_store_write 0 idWitnessHeap [] 0 ⟨7, [], [], .pnone⟩
    (.num 99) rfl⟩

/-- C2: when resolution reaches the missing-attribute hook and the hook's
result is the canonical `Null` sentinel, resolution falls through to the
parent-chain search instead of stopping: whatever value the parent-chain
search finds is the result of `get_attr`. -/
theorem hook_decline_falls_through (n : Nat) (h : Heap) (st : Stack) (o : ObjRef)
    (d : ObjData) (k : String) (hv r v : QValue) (fl : Bool) (c : FnCode)
    (hd : heapGet h o = some d)
    (h1 : k ≠ "__id__") (h2 : k ≠ "__parents__") (h3 : k ≠ "__stack__")
    (h4 : k ≠ "__this__")
    (hown : lookupKey d.store k = none)
    (hhook : findHook n h o = some hv)
    (hpl : payloadOfV h hv = .rustFn c)
    (hex : execHook c k = .ok r)
    (hnull : isNullV h r = true)
    (hpar : d.parents.findSome? (fun p => okOf (resolve n h st p k)) = some (v, fl)) :
    getAttr (n + 1) h st o k = .ok v := by
  simp [getAttr, resolve, hd, h1, h2, h3, h4, specialThis, hown, hhook, hpl, hex,
    hnull, hpar, Except.map]

/-- C2 witness: object 0's own hook declines exactly the key `"z"`, its
parent defines `z = 7`, and `get_attr(0, "z")` yields the parent's 7. -/
theorem hook_decline_falls_through_witness :
    heapGet hookWitnessHeap 0
      = some ⟨1, [("__attr_missing__", QValue.obj 2)], [1], .pnone⟩
    ∧ isNullV hookWitnessHeap .null = true
    ∧ getAttr 2 hookWitnessHeap [] 0 "z" = .ok (.num 7) :=
  ⟨rfl, rfl, hook_decline_falls_through 1 hookWitnessHeap [] 0
    ⟨1, [("__attr_missing__", QValue.obj 2)], [1], .pnone⟩ "z" (.obj 2) .null
    (.num 7) false (.declineKeys ["z"] QValue.null (QValue.num 42)) rfl
    (by decide) (by decide) (by decide) (by decide) rfl rfl rfl rfl rfl rfl⟩

/-- C3: parents are searched in declared order with the entire resolution
algorithm applied recursively to each: when the receiver's own store
misses, no hook is defined, and the full resolution against the first
listed parent succeeds with `v`, `get_attr` returns `v` — whatever the
remaining parents would say. -/
theorem first_parent_wins (n : Nat) (h : Heap) (st : Stack) (a : ObjRef)
    (d : ObjData) (k : String) (b : ObjRef) (rest : List ObjRef) (v : QValue)
    (fl : Bool)
    (hd : heapGet h a = some d)
    (h1 : k ≠ "__id__") (h2 : k ≠ "__parents__") (h3 : k ≠ "__stack__")
    (h4 : k ≠ "__this__")
    (hown : lookupKey d.store k = none)
    (hhook : findHook n h a = none)
    (hpar : d.parents = b :: rest)
    (hb : resolve n h st b k = .ok (v, fl)) :
    getAttr (n + 1) h st a k = .ok v := by
  simp [getAttr, resolve, hd, h1, h2, h3, h4, specialThis, hown, hhook, hpar,
    List.findSome?, hb, okOf, Except.map]

/-- C3 witness: object 0 has parents `[1, 2]`; parent 1 defines `y = 5`,
parent 2 defines `y = 9`; resolution returns parent 1's 5. -/
theorem first_parent_wins_witness :
    heapGet parentWitnessHeap 0 = some ⟨1, [], [1, 2], .pnone⟩
    ∧ storeLookup parentWitnessHeap 2 "y" = some (.num 9)
    ∧ getAttr 2 parentWitnessHeap [] 0 "y" = .ok (.num 5) :=
  ⟨rfl, rfl, first_parent_wins 1 parentWitnessHeap [] 0 ⟨1, [], [1, 2], .pnone⟩
    "y" 1 [2] (.num 5) false rfl (by decide) (by decide) (by decide) (by decide)
    rfl rfl rfl rfl⟩

theorem getAttr_ok_of_hasAttr (n : Nat) (h : Heap) (st : Stack) (o : ObjRef)
    (k : String) (hk : hasAttr h o k = true) :
    ∃ v, getAttr (n + 1) h st o k = .ok v := by
  cases hg : heapGet h o with
  | none =>
    exfalso
    unfold hasAttr storeLookup at hk
    rw [hg] at hk
    simp at hk
  | some d =>
    have hk2 : (lookupKey d.store k).isSome = true := by
      unfold hasAttr storeLookup at hk
      rw [hg] at hk
      simpa using hk
    obtain ⟨w, hw⟩ := Option.isSome_iff_exists.mp hk2
    by_cases e1 : k = "__id__"
    · exact ⟨.num d.oid, by subst e1; simp [getAttr, resolve, hg, Except.map]⟩
    by_cases e2 : k = "__parents__"
    · exact ⟨.listv (d.parents.map QValue.obj),
        by subst e2; simp [getAttr, resolve, hg, Except.map]⟩
    by_cases e3 : k = "__stack__"
    · exact ⟨.listv (st.map (fun f => QValue.obj f.owner)),
        by subst e3; simp [getAttr, resolve, hg, Except.map]⟩
    by_cases e4 : k = "__this__"
    · subst e4
      cases st with
      | nil =>
        exact ⟨w, by simp [getAttr, resolve, hg, specialThis, hw, Except.map]⟩
      | cons f t =>
        exact ⟨.obj f.owner,
          by simp [getAttr, resolve, hg, specialThis, Except.map]⟩
    · exact ⟨w, by simp [getAttr, resolve, hg, e1, e2, e3, e4, specialThis, hw,
        Except.map]⟩

/-- C5: the safe-navigation retrieval `.?` never fails with
MissingAttribute: whatever the arguments, its outcome is never a
`missingAttr` error; and for a key `k` (argument 0, a text literal),
when `has_attr` is false it returns the canonical empty `Null` value,
and when `has_attr` is true it returns exactly what `get_attr`
returns. -/
theorem safe_nav_never_missing (n : Nat) (h : Heap) (st : Stack) (this : ObjRef)
    (args : List QValue) :
    (∀ k, Pristine.qs_dot_get_attr_q (n + 1) h st this args
      ≠ .error (.missingAttr k))
    ∧ (∀ attr k, args[0]? = some attr → textOfV h attr = some k →
        (hasAttr h this k = false →
          Pristine.qs_dot_get_attr_q (n + 1) h st this args = .ok .null)
        ∧ (hasAttr h this k = true →
          Pristine.qs_dot_get_attr_q (n + 1) h st this args
            = getAttr (n + 1) h st this k)) := by
  constructor
  · intro k
    cases hA : args[0]? with
    | none => simp [Pristine.qs_dot_get_attr_q, Args.try_arg, hA]
    | some attr =>
      cases hT : textOfV h attr with
      | none => simp [Pristine.qs_dot_get_attr_q, Args.try_arg, hA, hT]
      | some k2 =>
        by_cases hH : hasAttr h this k2
        · obtain ⟨v, hv⟩ := getAttr_ok_of_hasAttr n h st this k2 hH
          simp [Pristine.qs_dot_get_attr_q, Args.try_arg, hA, hT, hH, hv]
        · simp [Pristine.qs_dot_get_attr_q, Args.try_arg, hA, hT, hH]
  · intro attr k hA hT
    constructor
    · intro hH
      simp [Pristine.qs_dot_get_attr_q, Args.try_arg, hA, hT, hH]
    · intro hH
      simp [Pristine.qs_dot_get_attr_q, Args.try_arg, hA, hT, hH]

/-- C5 witness: on a heap whose object 0 owns only `x = 3`, `.?` with key
`"x"` returns what `get_attr` returns (3), `.?` with the absent key
`"zz"` returns `Null`, and neither is a MissingAttribute failure. -/
theorem safe_nav_never_missing_witness :
    ([QValue.text "x"][0]? = some (.text "x"))
    ∧ textOfV safeNavHeap (.text "x") = some "x"
    ∧ hasAttr safeNavHeap 0 "x" = true
    ∧ Pristine.qs_dot_get_attr_q 1 safeNavHeap [] 0 [.text "x"]
        = getAttr 1 safeNavHeap [] 0 "x"
    ∧ hasAttr safeNavHeap 0 "zz" = false
    ∧ Pristine.qs_dot_get_attr_q 1 safeNavHeap [] 0 [.text "zz"] = .ok .null
    ∧ (∀ k, Pristine.qs_dot_get_attr_q 1 safeNavHeap [] 0 [.text "zz"]
        ≠ .error (.missingAttr k)) :=
  ⟨rfl, rfl, rfl,
    ((safe_nav_never_missing 0 safeNavHeap [] 0 [.text "x"]).2
      (.text "x") "x" rfl rfl).2 rfl,
    rfl,
    ((safe_nav_never_missing 0 safeNavHeap [] 0 [.text "zz"]).2
      (.text "zz") "zz" rfl rfl).1 rfl,
    (safe_nav_never_missing 0 safeNavHeap [] 0 [.text "zz"]).1⟩

/-- C1: invoking a BoundMethod wrapper routes through
`BoundFunction::qs_call`, and `qs_call` with arguments `A` equals
dispatching the wrapped unbound callable's own `()` (call) attribute
with the stored owner prepended: `call_attr(unbound, "()",
[owner] ++ A)`. -/
theorem bound_method_dispatch (n : Nat) (h : Heap) (st : Stack) (w : ObjRef)
    (dw : ObjData) (ow : QValue) (br : ObjRef) (args : List QValue)
    (hd : heapGet h w = some dw)
    (hpl : dw.payload = .boundFn)
    (hown : lookupKey dw.store "__bound_object_owner__" = some ow)
    (hbnd : lookupKey dw.store "__bound_object__" = some (.obj br)) :
    invoke (n + 1) h st (.obj w) args = BoundFunction.qs_call n h st w args
    ∧ BoundFunction.qs_call (n + 1) h st w args
        = callAttr n h st br "()" (ow :: args) := by
  constructor
  · simp [invoke, BoundFunction.qs_call, dispatch, payloadOf, hd, hpl]
  · simp [BoundFunction.qs_call, dispatch, getAttr, resolve, specialThis, hd,
      hown, hbnd, callAttr, Except.map]

/-- C1 witness: a concrete wrapper (owner slot 2, wrapped callable slot
1 returning 42); invocation routes through `qs_call`, `qs_call` equals
the `call_attr` form, and the whole chain evaluates to 42. -/
theorem bound_method_dispatch_witness :
    heapGet boundWitnessHeap 0
      = some ⟨1, [("__bound_object_owner__", QValue.obj 2),
          ("__bound_object__", QValue.obj 1)], [], .boundFn⟩
    ∧ (invoke 6 boundWitnessHeap [] (.obj 0) []
        = BoundFunction.qs_call 5 boundWitnessHeap [] 0 []
      ∧ BoundFunction.qs_call 6 boundWitnessHeap [] 0 []
        = callAttr 5 boundWitnessHeap [] 1 "()" [QValue.obj 2])
    ∧ BoundFunction.qs_call 6 boundWitnessHeap [] 0 []
        = .ok (.num 42, boundWitnessHeap) :=
  ⟨rfl,
   bound_method_dispatch 5 boundWitnessHeap [] 0
     ⟨1, [("__bound_object_owner__", QValue.obj 2),
       ("__bound_object__", QValue.obj 1)], [], .boundFn⟩
     (QValue.obj 2) 1 [] rfl rfl rfl rfl,
   rfl⟩

/-- C7: `run_in_new_frame` pushes exactly one frame (the body observes
the stack with the new frame consed on), propagates the body's outcome
unchanged, and pops on every exit path; consequently every program built
from nested scoped-frame acquisitions — bodies that fail included —
leaves the stack exactly (hence in length) as it was before the
outermost call. -/
theorem frame_nesting_integrity :
    (∀ ow as body st, Binding.run_stackframe ow as body st
      = ((body (⟨ow, as⟩ :: st)).1, (body (⟨ow, as⟩ :: st)).2.tail))
    ∧ (∀ p st, (runProg p st).2 = st)
    ∧ (∀ p st, ((runProg p st).2).length = st.length) := by
  have hrestore : ∀ p st, (runProg p st).2 = st := by
    intro p
    induction p with
    | ret v => intro st; rfl
    | fail e => intro st; rfl
    | inFrame ow as p ih =>
      intro st
      simp [runProg, Binding.run_stackframe, ih]
    | seq a b iha ihb =>
      intro st
      have ha := iha st
      cases hr : runProg a st with
      | mk r st1 =>
        rw [hr] at ha
        cases r with
        | ok v =>
          have hb := ihb st1
          simp only [runProg, hr]
          exact hb.trans ha
        | error e =>
          simp only [runProg, hr]
          exact ha
  exact ⟨fun ow as body st => rfl, hrestore,
    fun p st => by rw [hrestore p st]⟩

/-- C8: an operation requiring the positional argument at index `i`
fails on an argument list shorter than `i + 1` with an ArityOrIndexError
carrying the requested index and the actual length: `try_arg` itself,
`__call_attr__`, `__get_attr__` and `__set_attr__` invoked with zero
arguments (and `__set_attr__` with one), and the direct invocation of an
unbound native method whose body requires argument `i`. -/
theorem required_arg_arity (args : List QValue) (i : Nat)
    (hlen : args.length < i + 1) :
    Args.try_arg args i = .error (.outOfBounds i args.length)
    ∧ (∀ fuel h st o,
        Pristine.qs_call_attr fuel h st o [] = .error (.outOfBounds 0 0))
    ∧ (∀ fuel h st o,
        Pristine.qs_get_attr fuel h st o [] = .error (.outOfBounds 0 0))
    ∧ (∀ h o, Pristine.qs_set_attr h o [] = .error (.outOfBounds 0 0))
    ∧ (∀ h o x, Pristine.qs_set_attr h o [x] = .error (.outOfBounds 1 1))
    ∧ (∀ fuel h st f df, heapGet h f = some df →
        df.payload = .rustFn (.argAt i) →
        invoke (fuel + 1) h st (.obj f) args
          = .error (.outOfBounds i args.length)) := by
  have hnone : args[i]? = none := listGet_none_of_len_le args i (by omega)
  refine ⟨?_, ?_, ?_, ?_, ?_, ?_⟩
  · simp [Args.try_arg, hnone]
  · intro fuel h st o
    simp [Pristine.qs_call_attr, Args.try_arg]
  · intro fuel h st o
    simp [Pristine.qs_get_attr, Args.try_arg]
  · intro h o
    simp [Pristine.qs_set_attr, Args.try_arg]
  · intro h o x
    simp [Pristine.qs_set_attr, Args.try_arg]
  · intro fuel h st f df hf hdf
    simp [invoke, dispatch, payloadOf, hf, hdf, execFn, Args.try_arg, hnone,
      Except.map]

/-- C8 witness: with zero arguments, `try_arg 0`, `__call_attr__`,
`__get_attr__`, `__set_attr__` and direct invocation of an
argument-0-requiring unbound method all fail with index 0 / length 0;
`__set_attr__` with one argument fails with index 1 / length 1. -/
theorem required_arg_arity_witness :
    (([] : List QValue).length < 0 + 1)
    ∧ Args.try_arg [] 0 = .error (.outOfBounds 0 0)
    ∧ Pristine.qs_call_attr 1 arityWitnessHeap [] 0 [] = .error (.outOfBounds 0 0)
    ∧ Pristine.qs_get_attr 1 arityWitnessHeap [] 0 [] = .error (.outOfBounds 0 0)
    ∧ Pristine.qs_set_attr arityWitnessHeap 0 [] = .error (.outOfBounds 0 0)
    ∧ Pristine.qs_set_attr arityWitnessHeap 0 [QValue.num 1]
        = .error (.outOfBounds 1 1)
    ∧ heapGet arityWitnessHeap 0 = some ⟨1, [], [], .rustFn (.argAt 0)⟩
    ∧ invoke 1 arityWitnessHeap [] (.obj 0) [] = .error (.outOfBounds 0 0) := by
  have t := required_arg_arity [] 0 (by simp)
  exact ⟨by simp, t.1, t.2.1 1 arityWitnessHeap [] 0,
    t.2.2.1 1 arityWitnessHeap [] 0, t.2.2.2.1 arityWitnessHeap 0,
    t.2.2.2.2.1 arityWitnessHeap 0 (QValue.num 1), rfl,
    t.2.2.2.2.2 0 arityWitnessHeap [] 0 ⟨1, [], [], .rustFn (.argAt 0)⟩ rfl rfl⟩

/-- C6 counterexample: with a population body that fails, the first call
to the one-time class population reports the failure and leaves the
claim flag set but the table unpopulated — and the very next call,
observing the flag already claimed, reports success (`Ok(())`) for that
failed, never-completed population, contradicting the claim that
subsequent callers must not report success. -/
theorem initOnce_second_call_reports_ok :
    initOnce false ⟨false, false⟩ = (.error .initFailure, ⟨true, false⟩)
    ∧ (initOnce false (initOnce false ⟨false, false⟩).2).1 = .ok ()
    ∧ (initOnce false ⟨false, false⟩).2.populated = false :=
  ⟨rfl, rfl, rfl⟩

/-- C6 as amended: a population failure is reported to the
first-claiming caller and leaves the flag claimed; every later call that
observes the flag already claimed returns success immediately — even
when the population never completed (the failed state is silently
treated as success; no retry). -/
theorem initOnce_claimed_behavior (popOk : Bool) (s : InitState) :
    (s.claimed = true → initOnce popOk s = (.ok (), s))
    ∧ (s.claimed = false → popOk = false →
        initOnce popOk s = (.error .initFailure, ⟨true, false⟩))
    ∧ (s.claimed = false → popOk = true →
        initOnce popOk s = (.ok (), ⟨true, true⟩)) := by
  refine ⟨?_, ?_, ?_⟩ <;> intros <;> simp [initOnce, *]

/-- C6 witness: after a failed first population (flag claimed, table
unpopulated) the next call returns success; a failing first call from
the pristine state reports the failure. -/
theorem initOnce_claimed_behavior_witness :
    ((⟨true, false⟩ : InitState).claimed = true)
    ∧ initOnce false ⟨true, false⟩ = (.ok (), ⟨true, false⟩)
    ∧ initOnce false ⟨false, false⟩ = (.error .initFailure, ⟨true, false⟩) :=
  ⟨rfl, (initOnce_claimed_behavior false ⟨true, false⟩).1 rfl,
   (initOnce_claimed_behavior false ⟨false, false⟩).2.1 rfl rfl⟩

/-- C9: when the receiver is a Regex, the first argument converts to the
text `s`, and the compiled pattern's first match on `s` has groups
`groups`, the `match` method returns those captured groups as a sequence
in group order, each matched group as its text and each unmatched group
as the canonical empty `Null` value. -/
theorem regex_match_groups (h : Heap) (this : ObjRef) (dthis : ObjData)
    (d : RegexData) (args : List QValue) (rhs : QValue) (s : String)
    (groups : List (Option String))
    (hA : args[0]? = some rhs)
    (hd : heapGet h this = some dthis)
    (hpl : dthis.payload = .pregex d)
    (hs : callDowncastText h rhs = .ok s)
    (hc : d.captures s = some groups) :
    Regex.qs_match h this args
      = .ok (.listv (groups.map (fun g =>
          match g with
          | some m => QValue.text m
          | none => QValue.null))) := by
  simp [Regex.qs_match, Args.arg, Args.try_arg, hA, payloadOf, hd, hpl, hs, hc]

/-- C9 witness: pattern `(a)(b)?` matched against subject `"a"` yields
the sequence `[whole "a", group "a", Null]` — the unparticipating second
group is the empty value. -/
theorem regex_match_groups_witness :
    ([QValue.text "a"][0]? = some (.text "a"))
    ∧ heapGet regexMatchHeap 0 = some ⟨1, [], [], .pregex regexMatchData⟩
    ∧ callDowncastText regexMatchHeap (.text "a") = .ok "a"
    ∧ regexMatchData.captures "a" = some [some "a", some "a", none]
    ∧ Regex.qs_match regexMatchHeap 0 [.text "a"]
        = .ok (.listv [.text "a", .text "a", .null]) :=
  ⟨rfl, rfl, rfl, rfl,
   regex_match_groups regexMatchHeap 0 ⟨1, [], [], .pregex regexMatchData⟩
     regexMatchData [.text "a"] (.text "a") "a" [some "a", some "a", none]
     rfl rfl rfl rfl rfl⟩

/-- C10: `==` on Regex objects returns true exactly when the source
pattern strings and the flag sets both coincide (so patterns denoting
the same language but written differently, or the same pattern under
different flags, compare unequal); and when either the receiver or the
argument is not a Regex payload, `==` fails with a downcast failure
instead of returning false. -/
theorem regex_eq_pattern_flags (h : Heap) (this : ObjRef) (dthis : ObjData)
    (args : List QValue) (rhs : QValue)
    (hA : args[0]? = some rhs)
    (hd : heapGet h this = some dthis) :
    (∀ d1 d2, dthis.payload = .pregex d1 → payloadOfV h rhs = .pregex d2 →
      ((Regex.qs_eql h this args = .ok (.boolv true))
        ↔ (d1.pattern = d2.pattern ∧ d1.flags = d2.flags))
      ∧ Regex.qs_eql h this args = .ok (.boolv (regexEq d1 d2)))
    ∧ ((∀ d, dthis.payload ≠ .pregex d) →
        Regex.qs_eql h this args = .error (.downcast "Regex"))
    ∧ (∀ d1, dthis.payload = .pregex d1 →
        (∀ d, payloadOfV h rhs ≠ .pregex d) →
        Regex.qs_eql h this args = .error (.downcast "Regex")) := by
  refine ⟨?_, ?_, ?_⟩
  · intro d1 d2 h1 h2
    have he : Regex.qs_eql h this args = .ok (.boolv (regexEq d1 d2)) := by
      simp [Regex.qs_eql, Args.arg, Args.try_arg, hA, payloadOf, hd, h1, h2]
    refine ⟨?_, he⟩
    rw [he]
    simp [regexEq, Bool.and_eq_true, decide_eq_true_eq]
  · intro hnd
    cases hp : dthis.payload with
    | pregex d => exact absurd hp (hnd d)
    | pnone => simp [Regex.qs_eql, Args.arg, Args.try_arg, hA, payloadOf, hd, hp]
    | pnull => simp [Regex.qs_eql, Args.arg, Args.try_arg, hA, payloadOf, hd, hp]
    | pbool b => simp [Regex.qs_eql, Args.arg, Args.try_arg, hA, payloadOf, hd, hp]
    | pnum m => simp [Regex.qs_eql, Args.arg, Args.try_arg, hA, payloadOf, hd, hp]
    | ptext s => simp [Regex.qs_eql, Args.arg, Args.try_arg, hA, payloadOf, hd, hp]
    | rustFn c => simp [Regex.qs_eql, Args.arg, Args.try_arg, hA, payloadOf, hd, hp]
    | boundFn => simp [Regex.qs_eql, Args.arg, Args.try_arg, hA, payloadOf, hd, hp]
  · intro d1 h1 hnd
    cases hp : payloadOfV h rhs with
    | pregex d => exact absurd hp (hnd d)
    | pnone => simp [Regex.qs_eql, Args.arg, Args.try_arg, hA, payloadOf, hd, h1, hp]
    | pnull => simp [Regex.qs_eql, Args.arg, Args.try_arg, hA, payloadOf, hd, h1, hp]
    | pbool b => simp [Regex.qs_eql, Args.arg, Args.try_arg, hA, payloadOf, hd, h1, hp]
    | pnum m => simp [Regex.qs_eql, Args.arg, Args.try_arg, hA, payloadOf, hd, h1, hp]
    | ptext s => simp [Regex.qs_eql, Args.arg, Args.try_arg, hA, payloadOf, hd, h1, hp]
    | rustFn c => simp [Regex.qs_eql, Args.arg, Args.try_arg, hA, payloadOf, hd, h1, hp]
    | boundFn => simp [Regex.qs_eql, Args.arg, Args.try_arg, hA, payloadOf, hd, h1, hp]

/-- C10 witness: `a|b` vs `b|a` (same language, different text) is
unequal; `a|b` vs case-insensitive `a|b` (same pattern, different flags)
is unequal; `a|b` vs itself is equal; a text receiver or a text argument
makes `==` fail with the Regex downcast failure. -/
theorem regex_eq_pattern_flags_witness :
    ([QValue.obj 1][0]? = some (.obj 1))
    ∧ heapGet regexEqHeap 0 = some ⟨1, [], [], .pregex regexA⟩
    ∧ Regex.qs_eql regexEqHeap 0 [.obj 1] = .ok (.boolv (regexEq regexA regexB))
    ∧ regexEq regexA regexB = false
    ∧ Regex.qs_eql regexEqHeap 0 [.obj 2] = .ok (.boolv (regexEq regexA regexAI))
    ∧ regexEq regexA regexAI = false
    ∧ Regex.qs_eql regexEqHeap 0 [.obj 0] = .ok (.boolv (regexEq regexA regexA))
    ∧ regexEq regexA regexA = true
    ∧ Regex.qs_eql regexEqHeap 3 [.obj 1] = .error (.downcast "Regex")
    ∧ Regex.qs_eql regexEqHeap 0 [.obj 3] = .error (.downcast "Regex") := by
  refine ⟨rfl, rfl, ?_, rfl, ?_, rfl, ?_, rfl, ?_, ?_⟩
  · exact ((regex_eq_pattern_flags regexEqHeap 0 ⟨1, [], [], .pregex regexA⟩
      [.obj 1] (.obj 1) rfl rfl).1 regexA regexB rfl rfl).2
  · exact ((regex_eq_pattern_flags regexEqHeap 0 ⟨1, [], [], .pregex regexA⟩
      [.obj 2] (.obj 2) rfl rfl).1 regexA regexAI rfl rfl).2
  · exact ((regex_eq_pattern_flags regexEqHeap 0 ⟨1, [], [], .pregex regexA⟩
      [.obj 0] (.obj 0) rfl rfl).1 regexA regexA rfl rfl).2
  · exact (regex_eq_pattern_flags regexEqHeap 3 ⟨4, [], [], .ptext "not a regex"⟩
      [.obj 1] (.obj 1) rfl rfl).2.1 (fun d hcon => Payload.noConfusion hcon)
  · exact (regex_eq_pattern_flags regexEqHeap 0 ⟨1, [], [], .pregex regexA⟩
      [.obj 3] (.obj 3) rfl rfl).2.2 regexA rfl
      (fun d hcon => Payload.noConfusion hcon)
